import Mathlib

/-!
Shallow embedding of the OTP-forwarder monitoring and deduplication pipeline:
`src/monitor.py` (class `IVASMSMonitor`) and `src/storage.py` (class `Storage`,
dataclass `SMSMessage`).

Modelling conventions:
* Python strings are Lean `String`; `str.strip()` is modelled on the
  underlying character list (`trimChars` / `pyStrip`).
* Python's builtin `hash` on `str` is a process-dependent function
  `h : String → Int`; on 64-bit CPython it takes values in
  `[-2^63, 2^63)`.  Every theorem about identifiers is parametric in `h`.
* The SQLite table `sms_messages` (primary key `id`) is a partial map
  `SMSDB : String → Option SMSMessage`; `_save_sms_sync` performs
  `INSERT OR REPLACE`, i.e. overwrites the row for `sms.id`.
* The table `bot_state` is a partial map `BotState`; `_set_state_sync` /
  `_get_state_sync` are `setStateSync` / `getStateSync`.
* `Storage.save_sms` returns a success boolean (it catches exceptions from the
  synchronous write).  The outcome of each write is an oracle
  `saveOk : SMSMessage → Bool`; a failed write leaves the database unchanged
  and produces an error log entry, exactly as the Python returns `False`
  after logging.  `IVASMSMonitor._check_for_new_messages` ignores this
  boolean, which the embedding reproduces.
* Observable effects (log lines, storage calls) are collected in lists so
  that "a warning is recorded" and "`set_state` is invoked" are statable.
-/

/-- Characters stripped by Python's `str.strip()` (the `str.isspace` set
restricted to ASCII, which is what the scraped text can contain). -/
def pyIsSpace (c : Char) : Bool :=
  c = ' ' || c = '\t' || c = '\n' || c = '\r' || c = '\x0b' || c = '\x0c'

/-- Strip leading and trailing whitespace from a character list. -/
def trimChars (l : List Char) : List Char :=
  (((l.dropWhile pyIsSpace).reverse).dropWhile pyIsSpace).reverse

/-- Python `s.strip()` as used in `monitor.py` lines 332-334. -/
def pyStrip (s : String) : String :=
  ⟨trimChars s.data⟩

/-- The dataclass `SMSMessage` of `src/storage.py` (lines 16-24). -/
structure SMSMessage where
  id : String
  sender : String
  message : String
  timestamp : String
  received_at : String
  forwarded : Bool := false
deriving DecidableEq

/-- `monitor.py` line 328: `message_id = f"{sender}_{timestamp}_{hash(message)}"`,
built from the *untrimmed* sender, timestamp and body; `h` is the
process's `hash` on strings. -/
def messageId (h : String → Int) (sender timestamp message : String) : String :=
  sender ++ "_" ++ timestamp ++ "_" ++ toString (h message)

/-- One rendered row of the listing, as seen by `_scrape_messages`
(lines 315-341): either the per-row extraction raises (caught, row skipped),
or it yields the three optional text contents (`none` models
`elem.count() == 0`, in which case the Python falls back to the defaults
`"Unknown"` / `""` / `""`). -/
inductive ScrapedRow where
  | failed
  | fields (sender body time : Option String)

/-- The state of the listing page: the container selector never appears
within the bounded wait (`wait_for_selector` times out, line 309, caught at
line 345), or it renders a list of rows. -/
inductive PageView where
  | absent
  | listing (rows : List ScrapedRow)

/-- Body of the per-row loop of `_scrape_messages` (lines 315-341):
a failed row is skipped; a row whose body is missing or empty is skipped
(`if message:`); otherwise the message is built with the id from the raw
fields and the stored fields stripped.  `now` models
`datetime.now().isoformat()`. -/
def scrapeRow (h : String → Int) (now : String) : ScrapedRow → Option SMSMessage
  | .failed => none
  | .fields s b t =>
    let sender := s.getD "Unknown"
    let message := b.getD ""
    let timestamp := t.getD ""
    if message ≠ "" then
      some { id := messageId h sender timestamp message
             sender := pyStrip sender
             message := pyStrip message
             timestamp := pyStrip timestamp
             received_at := now
             forwarded := false }
    else none

/-- The loop of `_scrape_messages` over the located rows. -/
def scrapeRows (h : String → Int) (now : String) : List ScrapedRow → List SMSMessage
  | [] => []
  | r :: rest =>
    match scrapeRow h now r with
    | some m => m :: scrapeRows h now rest
    | none => scrapeRows h now rest

/-- `IVASMSMonitor._scrape_messages` (lines 302-347): an absent listing
container yields `[]` (timeout caught at line 345), otherwise the rows are
scraped in rendering order (newest first). -/
def scrapeMessages (h : String → Int) (now : String) : PageView → List SMSMessage
  | .absent => []
  | .listing rows => scrapeRows h now rows

/-- The `sms_messages` table keyed by the `id` primary key. -/
def SMSDB : Type := String → Option SMSMessage

/-- An empty `sms_messages` table. -/
def emptyDB : SMSDB := fun _ => none

/-- `Storage._save_sms_sync` (storage.py lines 107-115):
`INSERT OR REPLACE INTO sms_messages ...` — the row for `sms.id` is written
unconditionally, replacing any existing row with that primary key. -/
def saveSMSSync (db : SMSDB) (sms : SMSMessage) : SMSDB :=
  fun k => if k = sms.id then some sms else db k

/-- The `bot_state` table keyed by `key`. -/
def BotState : Type := String → Option String

/-- `Storage._set_state_sync` (storage.py lines 185-192):
`INSERT OR REPLACE INTO bot_state (key, value)`. -/
def setStateSync (st : BotState) (key value : String) : BotState :=
  fun k => if k = key then some value else st k

/-- `Storage._get_state_sync` (storage.py lines 204-209). -/
def getStateSync (st : BotState) (key : String) : Option String :=
  st key

/-- Severity of a log line emitted through `logger_setup.get_logger`. -/
inductive LogLevel where
  | info
  | warning
  | error
deriving DecidableEq

/-- One emitted log line. -/
structure LogEntry where
  level : LogLevel
  text : String
deriving DecidableEq

/-- A call made against the `Storage` object. -/
inductive StoreOp where
  | saveSMS (sms : SMSMessage)
  | setState (key value : String)
  | getState (key : String)
deriving DecidableEq

/-- `true` exactly on `Storage.save_sms` calls. -/
def isSaveOp : StoreOp → Bool
  | .saveSMS _ => true
  | _ => false

/-- The scan of `_check_for_new_messages` (monitor.py lines 284-289):
`for message in messages: if not self.last_seen_id or message.id !=
self.last_seen_id: new_messages.append(message) else: break`. -/
def findNewMessages : Option String → List SMSMessage → List SMSMessage
  | _, [] => []
  | none, m :: rest => m :: findNewMessages none rest
  | some x, m :: rest =>
    if m.id = x then [] else m :: findNewMessages (some x) rest

/-- State after running `_check_for_new_messages` once: the database, the
in-memory cursor `self.last_seen_id`, the number of messages classified new,
and the observable log lines and storage calls of the run. -/
structure CheckResult where
  db : SMSDB
  lastSeenId : Option String
  newCount : Nat
  log : List LogEntry
  ops : List StoreOp

/-- Intermediate result of the persistence loop. -/
structure ProcResult where
  db : SMSDB
  lastSeenId : Option String
  log : List LogEntry
  ops : List StoreOp

/-- The persistence loop of `_check_for_new_messages` (lines 293-297):
`for message in reversed(new_messages): await self.storage.save_sms(message);
self.last_seen_id = message.id; logger.info(...)`.  The list argument is the
already-reversed (oldest-first) sequence.  A failed `save_sms` logs an error
and leaves the table unchanged; its boolean result is ignored, so the cursor
is assigned either way. -/
def processNew (saveOk : SMSMessage → Bool) :
    List SMSMessage → SMSDB → Option String → ProcResult
  | [], db, cur => ⟨db, cur, [], []⟩
  | m :: rest, db, _ =>
    let db' := if saveOk m then saveSMSSync db m else db
    let saveLog : List LogEntry :=
      if saveOk m then [] else [⟨.error, "Failed to save SMS"⟩]
    let r := processNew saveOk rest db' (some m.id)
    ⟨r.db, r.lastSeenId,
      saveLog ++ ⟨.info, "New SMS: " ++ m.sender ++ " - " ++ m.message⟩ :: r.log,
      .saveSMS m :: r.ops⟩

/-- The `if new_messages:` block of `_check_for_new_messages`
(lines 291-297), applied to the computed `new_messages` list. -/
def ingestNew (saveOk : SMSMessage → Bool) (db : SMSDB) (lastSeen : Option String) :
    List SMSMessage → CheckResult
  | [] => ⟨db, lastSeen, 0, [], []⟩
  | m :: t =>
    let r := processNew saveOk ((m :: t).reverse) db lastSeen
    ⟨r.db, r.lastSeenId, (m :: t).length,
      ⟨.info, "Found " ++ toString (m :: t).length ++ " new messages"⟩ :: r.log,
      r.ops⟩

/-- `IVASMSMonitor._check_for_new_messages` (monitor.py lines 276-300) on an
already-scraped batch: an empty scrape returns immediately
(`if not messages: return`); otherwise the new subset is computed and, when
non-empty, persisted oldest-first while advancing the in-memory cursor. -/
def checkForNewMessages (saveOk : SMSMessage → Bool) (db : SMSDB)
    (lastSeen : Option String) (batch : List SMSMessage) : CheckResult :=
  match batch with
  | [] => ⟨db, lastSeen, 0, [], []⟩
  | _ :: _ => ingestNew saveOk db lastSeen (findNewMessages lastSeen batch)

/-- The save oracle of a run in which every database write succeeds. -/
def saveAll : SMSMessage → Bool := fun _ => true

/-- Concrete messages used in witnesses and counterexamples. -/
def msgA : SMSMessage :=
  ⟨"a", "SA", "body a", "01:00", "2024-01-01T00:00:00", false⟩

def msgB : SMSMessage :=
  ⟨"b", "SB", "body b", "02:00", "2024-01-01T00:01:00", false⟩

def msgC : SMSMessage :=
  ⟨"c", "SC", "body c", "03:00", "2024-01-01T00:02:00", false⟩

-- basic equation lemmas

theorem findNewMessages_nil (c : Option String) : findNewMessages c [] = [] := by
  cases c <;> rfl

theorem findNewMessages_none_cons (m : SMSMessage) (l : List SMSMessage) :
    findNewMessages none (m :: l) = m :: findNewMessages none l := rfl

theorem findNewMessages_some_cons (x : String) (m : SMSMessage) (l : List SMSMessage) :
    findNewMessages (some x) (m :: l) =
      if m.id = x then [] else m :: findNewMessages (some x) l := rfl

theorem checkForNewMessages_nil (saveOk : SMSMessage → Bool) (db : SMSDB)
    (c : Option String) : checkForNewMessages saveOk db c [] = ⟨db, c, 0, [], []⟩ := rfl

theorem checkForNewMessages_cons (saveOk : SMSMessage → Bool) (db : SMSDB)
    (c : Option String) (m : SMSMessage) (rest : List SMSMessage) :
    checkForNewMessages saveOk db c (m :: rest) =
      ingestNew saveOk db c (findNewMessages c (m :: rest)) := rfl

-- helper lemmas about the dedup scan

theorem findNewMessages_head (c : Option String) (m m' : SMSMessage)
    (rest t : List SMSMessage)
    (h : findNewMessages c (m :: rest) = m' :: t) : m' = m := by
  cases c with
  | none =>
    rw [findNewMessages_none_cons] at h
    exact (List.cons.injEq .. ▸ h).1.symm
  | some x =>
    rw [findNewMessages_some_cons] at h
    by_cases hx : m.id = x
    · simp [hx] at h
    · simp only [hx, if_false] at h
      exact (List.cons.injEq .. ▸ h).1.symm

theorem findNewMessages_eq_nil_iff (c : Option String) (m : SMSMessage)
    (rest : List SMSMessage) :
    findNewMessages c (m :: rest) = [] ↔ c = some m.id := by
  cases c with
  | none => simp [findNewMessages_none_cons]
  | some x =>
    rw [findNewMessages_some_cons]
    by_cases hx : m.id = x
    · simp [hx]
    · rw [if_neg hx]
      simp [Ne.symm hx]

theorem findNewMessages_none_eq (batch : List SMSMessage) :
    findNewMessages none batch = batch := by
  induction batch with
  | nil => rfl
  | cons m rest ih => rw [findNewMessages_none_cons, ih]

theorem findNewMessages_not_found (x : String) (batch : List SMSMessage)
    (h : ∀ m ∈ batch, m.id ≠ x) :
    findNewMessages (some x) batch = batch := by
  induction batch with
  | nil => rfl
  | cons m rest ih =>
    rw [findNewMessages_some_cons, if_neg (h m (by simp))]
    rw [ih (fun m' hm' => h m' (by simp [hm']))]

theorem findNewMessages_found (x : String) (pre : List SMSMessage)
    (b : SMSMessage) (post : List SMSMessage)
    (hb : b.id = x) (hpre : ∀ m ∈ pre, m.id ≠ x) :
    findNewMessages (some x) (pre ++ b :: post) = pre := by
  induction pre with
  | nil => simp [findNewMessages_some_cons, hb]
  | cons m rest ih =>
    rw [List.cons_append, findNewMessages_some_cons,
      if_neg (hpre m (by simp)), ih (fun m' hm' => hpre m' (by simp [hm']))]

-- helper lemmas about the persistence loop

theorem processNew_lastSeen (saveOk : SMSMessage → Bool) (l : List SMSMessage)
    (db : SMSDB) (cur : Option String) :
    (processNew saveOk l db cur).lastSeenId =
      (l.getLast?).elim cur (fun m => some m.id) := by
  induction l generalizing db cur with
  | nil => rfl
  | cons m rest ih =>
    show (processNew saveOk rest _ (some m.id)).lastSeenId = _
    rw [ih]
    cases rest with
    | nil => rfl
    | cons m' t => rw [List.getLast?_cons_cons]; rfl

theorem processNew_ops (saveOk : SMSMessage → Bool) (l : List SMSMessage)
    (db : SMSDB) (cur : Option String) :
    (processNew saveOk l db cur).ops = l.map StoreOp.saveSMS := by
  induction l generalizing db cur with
  | nil => rfl
  | cons m rest ih =>
    show StoreOp.saveSMS m :: (processNew saveOk rest _ (some m.id)).ops = _
    rw [ih]; rfl

theorem processNew_db (saveOk : SMSMessage → Bool) (l : List SMSMessage)
    (db : SMSDB) (cur : Option String) :
    (processNew saveOk l db cur).db = (l.filter saveOk).foldl saveSMSSync db := by
  induction l generalizing db cur with
  | nil => rfl
  | cons m rest ih =>
    show (processNew saveOk rest (if saveOk m then saveSMSSync db m else db) (some m.id)).db = _
    rw [ih, List.filter_cons]
    by_cases hm : saveOk m = true <;> simp [hm]

theorem processNew_log_info (l : List SMSMessage) (db : SMSDB) (cur : Option String) :
    ∀ e ∈ (processNew saveAll l db cur).log, e.level = LogLevel.info := by
  induction l generalizing db cur with
  | nil => intro e he; simp [processNew] at he
  | cons m rest ih =>
    intro e he
    show e.level = LogLevel.info
    have : e = ⟨LogLevel.info, "New SMS: " ++ m.sender ++ " - " ++ m.message⟩ ∨
        e ∈ (processNew saveAll rest (saveSMSSync db m) (some m.id)).log := by
      simpa [processNew, saveAll] using he
    rcases this with h | h
    · rw [h]
    · exact ih _ _ e h

-- helper lemmas about a whole check cycle

theorem checkForNewMessages_no_new (saveOk : SMSMessage → Bool) (db : SMSDB)
    (c : Option String) (batch : List SMSMessage)
    (h : findNewMessages c batch = []) :
    checkForNewMessages saveOk db c batch = ⟨db, c, 0, [], []⟩ := by
  cases batch with
  | nil => rfl
  | cons m rest => rw [checkForNewMessages_cons, h]; rfl

theorem checkForNewMessages_lastSeen_cons (saveOk : SMSMessage → Bool) (db : SMSDB)
    (c : Option String) (m : SMSMessage) (rest : List SMSMessage) :
    (checkForNewMessages saveOk db c (m :: rest)).lastSeenId = some m.id := by
  rw [checkForNewMessages_cons]
  rcases hfn : findNewMessages c (m :: rest) with _ | ⟨m', t⟩
  · have hc := (findNewMessages_eq_nil_iff c m rest).1 hfn
    simp [ingestNew, hc]
  · have hm : m' = m := findNewMessages_head c m m' rest t hfn
    show (processNew saveOk ((m' :: t).reverse) db c).lastSeenId = some m.id
    rw [processNew_lastSeen, List.getLast?_reverse]
    simp [hm]

theorem checkForNewMessages_ops_eq (saveOk : SMSMessage → Bool) (db : SMSDB)
    (c : Option String) (batch : List SMSMessage) :
    (checkForNewMessages saveOk db c batch).ops =
      ((findNewMessages c batch).reverse).map StoreOp.saveSMS := by
  cases batch with
  | nil => rw [checkForNewMessages_nil, findNewMessages_nil]; rfl
  | cons m rest =>
    rw [checkForNewMessages_cons]
    rcases hfn : findNewMessages c (m :: rest) with _ | ⟨m', t⟩
    · rfl
    · show (processNew saveOk ((m' :: t).reverse) db c).ops = _
      rw [processNew_ops]

theorem checkForNewMessages_log_info (db : SMSDB) (c : Option String)
    (batch : List SMSMessage) :
    ∀ e ∈ (checkForNewMessages saveAll db c batch).log, e.level = LogLevel.info := by
  cases batch with
  | nil => intro e he; simp [checkForNewMessages_nil] at he
  | cons m rest =>
    rw [checkForNewMessages_cons]
    rcases hfn : findNewMessages c (m :: rest) with _ | ⟨m', t⟩
    · intro e he; simp [ingestNew] at he
    · intro e he
      have : e = (⟨LogLevel.info,
            "Found " ++ toString (m' :: t).length ++ " new messages"⟩ : LogEntry) ∨
          e ∈ (processNew saveAll ((m' :: t).reverse) db c).log := by
        simpa [ingestNew] using he
      rcases this with h | h
      · rw [h]
      · exact processNew_log_info _ _ _ e h

-- string machinery: Python strip and the structure of message identifiers

theorem dropWhile_head_not (p : Char → Bool) :
    ∀ (l : List Char) (c : Char) (t : List Char), l.dropWhile p = c :: t → p c = false := by
  intro l
  induction l with
  | nil => intro c t h; simp at h
  | cons a l ih =>
    intro c t h
    rw [List.dropWhile_cons] at h
    by_cases hp : p a = true
    · rw [if_pos hp] at h
      exact ih c t h
    · rw [if_neg hp] at h
      injection h with h1 _
      subst h1
      simpa using hp

theorem dropWhile_idem (p : Char → Bool) (l : List Char) :
    (l.dropWhile p).dropWhile p = l.dropWhile p := by
  rcases hd : l.dropWhile p with _ | ⟨c, t⟩
  · rfl
  · rw [List.dropWhile_cons, dropWhile_head_not p l c t hd]
    simp

theorem dropWhile_append_last (p : Char → Bool) (c : Char) (hc : p c = false) :
    ∀ u : List Char, (u ++ [c]).dropWhile p = u.dropWhile p ++ [c] := by
  intro u
  induction u with
  | nil => simp [List.dropWhile_cons, hc]
  | cons a u ih =>
    rw [List.cons_append, List.dropWhile_cons, List.dropWhile_cons]
    by_cases hp : p a = true
    · rw [if_pos hp, if_pos hp, ih]
    · rw [if_neg hp, if_neg hp, List.cons_append]

theorem trimChars_idem (l : List Char) : trimChars (trimChars l) = trimChars l := by
  unfold trimChars
  rcases hd : l.dropWhile pyIsSpace with _ | ⟨c, t⟩
  · simp
  · have hc : pyIsSpace c = false := dropWhile_head_not _ l c t hd
    rw [List.reverse_cons, dropWhile_append_last _ c hc, List.reverse_append,
      List.reverse_singleton, List.singleton_append, List.dropWhile_cons, hc]
    simp only [Bool.false_eq_true, if_false, List.reverse_cons, List.reverse_reverse]
    rw [dropWhile_append_last _ c hc, dropWhile_idem]
    simp

theorem pyStrip_idem (s : String) : pyStrip (pyStrip s) = pyStrip s := by
  show (⟨trimChars (trimChars s.data)⟩ : String) = ⟨trimChars s.data⟩
  rw [trimChars_idem]

/-- Number of non-whitespace characters; invariant under `trimChars`, and the
quantity that pins the position of the `"_"` separators of a `messageId`. -/
def nonWsLen (l : List Char) : Nat :=
  (l.filter fun c => !pyIsSpace c).length

theorem filter_dropWhile_eq (l : List Char) :
    (l.dropWhile pyIsSpace).filter (fun c => !pyIsSpace c) =
      l.filter (fun c => !pyIsSpace c) := by
  induction l with
  | nil => rfl
  | cons a l ih =>
    rw [List.dropWhile_cons]
    by_cases hp : pyIsSpace a = true
    · rw [if_pos hp, ih, List.filter_cons]
      simp [hp]
    · rw [if_neg hp]

theorem nonWsLen_trim (l : List Char) : nonWsLen (trimChars l) = nonWsLen l := by
  unfold trimChars nonWsLen
  rw [List.filter_reverse, List.length_reverse, filter_dropWhile_eq,
    List.filter_reverse, List.length_reverse, filter_dropWhile_eq]

theorem nonWsLen_of_strip_eq {s t : String} (h : pyStrip s = pyStrip t) :
    nonWsLen s.data = nonWsLen t.data := by
  have hd : trimChars s.data = trimChars t.data := congrArg String.data h
  have := congrArg nonWsLen hd
  rwa [nonWsLen_trim, nonWsLen_trim] at this

theorem str_data_inj {s t : String} (h : s.data = t.data) : s = t := by
  cases s; cases t; exact congrArg String.mk h

theorem append_sep_inj : ∀ (a b r1 r2 : List Char),
    nonWsLen a = nonWsLen b →
    a ++ '_' :: r1 = b ++ '_' :: r2 → a = b ∧ r1 = r2 := by
  intro a
  induction a with
  | nil =>
    intro b r1 r2 hcnt heq
    cases b with
    | nil => simpa using heq
    | cons d b' =>
      exfalso
      rw [List.nil_append, List.cons_append] at heq
      injection heq with h1 _
      subst h1
      have hu : (!pyIsSpace '_') = true := by decide
      simp [nonWsLen, List.filter_cons, hu] at hcnt
  | cons c a' ih =>
    intro b r1 r2 hcnt heq
    cases b with
    | nil =>
      exfalso
      rw [List.nil_append, List.cons_append] at heq
      injection heq with h1 _
      subst h1
      have hu : (!pyIsSpace '_') = true := by decide
      simp [nonWsLen, List.filter_cons, hu] at hcnt
    | cons d b' =>
      rw [List.cons_append, List.cons_append] at heq
      injection heq with h1 h2
      subst h1
      have hcnt' : nonWsLen a' = nonWsLen b' := by
        rcases hc2 : (!pyIsSpace c) with _ | _ <;>
          simp [nonWsLen, List.filter_cons, hc2] at hcnt ⊢ <;> exact hcnt
      obtain ⟨h3, h4⟩ := ih b' r1 r2 hcnt' h2
      exact ⟨by rw [h3], h4⟩

theorem messageId_data (h : String → Int) (s t m : String) :
    (messageId h s t m).data =
      s.data ++ '_' :: (t.data ++ '_' :: (toString (h m)).data) := by
  unfold messageId
  rw [String.data_append, String.data_append, String.data_append, String.data_append]
  have hu : ("_" : String).data = ['_'] := rfl
  rw [hu]
  simp [List.append_assoc]

theorem messageId_inj_core (h : String → Int) (s1 t1 m1 s2 t2 m2 : String)
    (hs : nonWsLen s1.data = nonWsLen s2.data)
    (ht : nonWsLen t1.data = nonWsLen t2.data)
    (he : messageId h s1 t1 m1 = messageId h s2 t2 m2) :
    s1 = s2 ∧ t1 = t2 ∧ toString (h m1) = toString (h m2) := by
  have hd := congrArg String.data he
  rw [messageId_data, messageId_data] at hd
  obtain ⟨h1, h2⟩ := append_sep_inj _ _ _ _ hs hd
  obtain ⟨h3, h4⟩ := append_sep_inj _ _ _ _ ht h2
  exact ⟨str_data_inj h1, str_data_inj h3, str_data_inj h4⟩

-- concrete rows for the insert-or-replace counterexample

def rowOld : SMSMessage :=
  ⟨"a", "S", "body", "01:00", "2024-01-01T00:00:00", true⟩

def rowNew : SMSMessage :=
  ⟨"a", "S", "body", "01:00", "2024-02-02T00:00:00", false⟩

/-- C1: reconciliation is idempotent.  For any fixed newest-first batch and
starting cursor, running `_check_for_new_messages` a second time (from the
state the first run left behind) classifies zero messages as new, leaves the
persisted message table identical, and leaves the cursor unchanged. -/
theorem reconcile_idempotent (db : SMSDB) (c : Option String)
    (batch : List SMSMessage) :
    let r1 := checkForNewMessages saveAll db c batch
    let r2 := checkForNewMessages saveAll r1.db r1.lastSeenId batch
    r2.newCount = 0 ∧ r2.db = r1.db ∧ r2.lastSeenId = r1.lastSeenId := by
  cases batch with
  | nil => exact ⟨rfl, rfl, rfl⟩
  | cons m rest =>
    intro r1 r2
    have h1 : r1.lastSeenId = some m.id :=
      checkForNewMessages_lastSeen_cons saveAll db c m rest
    have hfn2 : findNewMessages r1.lastSeenId (m :: rest) = [] := by
      rw [h1, findNewMessages_some_cons, if_pos rfl]
    have h2 : r2 = ⟨r1.db, r1.lastSeenId, 0, [], []⟩ :=
      checkForNewMessages_no_new saveAll r1.db r1.lastSeenId (m :: rest) hfn2
    rw [h2]
    exact ⟨rfl, rfl, rfl⟩

/-- C2 (counterexample): `_save_sms_sync` uses `INSERT OR REPLACE`, so
appending a message whose identifier already exists overwrites the stored
row — here the re-append changes both the stored ingestion timestamp
(`received_at`) and the `forwarded` flag of row `"a"`.  This contradicts the
claimed insert-or-ignore no-op semantics. -/
theorem save_sms_overwrite_cex :
    saveSMSSync emptyDB rowOld "a" = some rowOld ∧
    saveSMSSync (saveSMSSync emptyDB rowOld) rowNew "a" = some rowNew ∧
    rowNew.id = rowOld.id ∧
    rowNew.received_at ≠ rowOld.received_at ∧
    rowNew.forwarded ≠ rowOld.forwarded := by
  decide

/-- C2 (amended): the store's append has insert-or-REPLACE semantics keyed by
identifier: appending a message always succeeds and installs the new message
as the row for its identifier — overwriting any existing row's `received_at`
and `forwarded` — while rows under every other key are untouched. -/
theorem save_sms_insert_or_replace (db : SMSDB) (sms : SMSMessage) :
    saveSMSSync db sms sms.id = some sms ∧
    ∀ k, k ≠ sms.id → saveSMSSync db sms k = db k := by
  constructor
  · simp [saveSMSSync]
  · intro k hk
    simp [saveSMSSync, hk]

theorem save_sms_insert_or_replace_witness :
    saveSMSSync emptyDB rowOld rowOld.id = some rowOld ∧
    saveSMSSync emptyDB rowOld "zz" = emptyDB "zz" :=
  ⟨(save_sms_insert_or_replace emptyDB rowOld).1,
   (save_sms_insert_or_replace emptyDB rowOld).2 "zz" (by decide)⟩

/-- C3: deduplication classification.  (i) an unset cursor classifies the
whole batch as new; (ii) a set cursor whose identifier occurs in the batch
yields exactly the entries strictly before the first boundary entry,
boundary excluded; (iii) the new subset is persisted in reversed
(oldest-first) order; (iv) concretely, batch `[c, b, a]` with cursor `"b"`
persists exactly `[c]` and the cursor becomes `"c"`. -/
theorem dedup_classification :
    (∀ batch : List SMSMessage, findNewMessages none batch = batch) ∧
    (∀ (x : String) (pre : List SMSMessage) (b : SMSMessage)
        (post : List SMSMessage), b.id = x → (∀ m ∈ pre, m.id ≠ x) →
      findNewMessages (some x) (pre ++ b :: post) = pre) ∧
    (∀ (db : SMSDB) (c : Option String) (batch : List SMSMessage),
      (checkForNewMessages saveAll db c batch).ops =
        ((findNewMessages c batch).reverse).map StoreOp.saveSMS) ∧
    ((checkForNewMessages saveAll emptyDB (some "b") [msgC, msgB, msgA]).ops =
        [StoreOp.saveSMS msgC] ∧
      (checkForNewMessages saveAll emptyDB (some "b")
          [msgC, msgB, msgA]).lastSeenId = some "c") := by
  refine ⟨findNewMessages_none_eq, findNewMessages_found,
    checkForNewMessages_ops_eq saveAll, ?_, ?_⟩
  · decide
  · decide

theorem dedup_classification_witness :
    findNewMessages (some "b") ([msgC] ++ msgB :: [msgA]) = [msgC] :=
  dedup_classification.2.1 "b" [msgC] msgB [msgA] (by decide) (by decide)

/-- C4: cursor advancement.  After reconciling a non-empty batch with every
persistence succeeding, the cursor equals the identifier of the newest
(first) element of the whole batch; and an empty batch yields zero new
messages, an unchanged cursor, and an unchanged table. -/
theorem cursor_advancement :
    (∀ (db : SMSDB) (c : Option String) (m : SMSMessage)
        (rest : List SMSMessage),
      (checkForNewMessages saveAll db c (m :: rest)).lastSeenId = some m.id) ∧
    (∀ (db : SMSDB) (c : Option String),
      (checkForNewMessages saveAll db c []).newCount = 0 ∧
      (checkForNewMessages saveAll db c []).lastSeenId = c ∧
      (checkForNewMessages saveAll db c []).db = db) :=
  ⟨fun db c m rest => checkForNewMessages_lastSeen_cons saveAll db c m rest,
   fun _ _ => ⟨rfl, rfl, rfl⟩⟩

/-- C5 (counterexample): with cursor `"X"` absent from the batch, the entire
batch is indeed classified new, but the run records no warning — every log
line of the cycle is below warning level, so the claimed warning does not
exist. -/
theorem cursor_anomaly_no_warning_cex :
    (([msgA].all fun m => m.id != "X") = true) ∧
    findNewMessages (some "X") [msgA] = [msgA] ∧
    (((checkForNewMessages saveAll emptyDB (some "X") [msgA]).log.all
        fun e => e.level != LogLevel.warning) = true) := by
  decide

/-- C5 (amended): when the set cursor is not found in the batch the entire
batch is classified new, but the anomaly is silent: no warning is recorded —
the cycle emits only info-level log lines (the code never detects that the
cursor was missing). -/
theorem cursor_anomaly_silent (x : String) (db : SMSDB)
    (batch : List SMSMessage) (h : ∀ m ∈ batch, m.id ≠ x) :
    findNewMessages (some x) batch = batch ∧
    ∀ e ∈ (checkForNewMessages saveAll db (some x) batch).log,
      e.level = LogLevel.info :=
  ⟨findNewMessages_not_found x batch h,
   checkForNewMessages_log_info db (some x) batch⟩

theorem cursor_anomaly_silent_witness :
    findNewMessages (some "X") [msgA] = [msgA] ∧
    ∀ e ∈ (checkForNewMessages saveAll emptyDB (some "X") [msgA]).log,
      e.level = LogLevel.info :=
  cursor_anomaly_silent "X" emptyDB [msgA] (by decide)

/-- C6 (counterexample): with a failing store (`save_sms` reports failure on
every message), reconciling `[msgA]` from an unset cursor leaves the message
unpersisted, yet the cursor still advances to `"a"`, and on the next cycle
the same batch yields no new messages — the message is lost, not retried. -/
theorem storage_failure_cursor_advances_cex :
    (checkForNewMessages (fun _ => false) emptyDB none [msgA]).db "a" = none ∧
    (checkForNewMessages (fun _ => false) emptyDB none [msgA]).lastSeenId =
      some "a" ∧
    findNewMessages
      (checkForNewMessages (fun _ => false) emptyDB none [msgA]).lastSeenId
      [msgA] = [] := by
  decide

/-- C6 (amended): `_check_for_new_messages` ignores the boolean result of
`save_sms`: the final cursor is the same as in an all-successful run (the
cursor advances past failed messages), and the table receives exactly the
messages whose write succeeded — a failed message is not persisted and is
not re-attempted, since the advanced cursor no longer classifies it new. -/
theorem storage_failure_not_atomic (saveOk : SMSMessage → Bool) (db : SMSDB)
    (c : Option String) (batch : List SMSMessage) :
    (checkForNewMessages saveOk db c batch).lastSeenId =
      (checkForNewMessages saveAll db c batch).lastSeenId ∧
    (checkForNewMessages saveOk db c batch).db =
      ((findNewMessages c batch).reverse.filter saveOk).foldl saveSMSSync db := by
  constructor
  · cases batch with
    | nil => rfl
    | cons m rest =>
      rw [checkForNewMessages_lastSeen_cons, checkForNewMessages_lastSeen_cons]
  · cases batch with
    | nil =>
      rw [checkForNewMessages_nil, findNewMessages_nil]
      rfl
    | cons m rest =>
      rw [checkForNewMessages_cons]
      rcases hfn : findNewMessages c (m :: rest) with _ | ⟨m', t⟩
      · rfl
      · show (processNew saveOk ((m' :: t).reverse) db c).db = _
        rw [processNew_db]

/-- C7 (counterexample): a successful ingestion of one new message performs
exactly one storage call — a `save_sms` — and in particular no `set_state`
write of the cursor and no `get_state` read: the cursor is never persisted
through the key-value state interface. -/
theorem cursor_not_persisted_cex :
    (checkForNewMessages saveAll emptyDB none [msgA]).newCount = 1 ∧
    (checkForNewMessages saveAll emptyDB none [msgA]).ops =
      [StoreOp.saveSMS msgA] := by
  decide

/-- C7 (amended): the cursor lives only in the monitor's in-memory
`last_seen_id` attribute.  Every storage call a reconcile cycle makes is a
`save_sms` — `set_state` is never written and `get_state` is never read for
the cursor — even though the store's key-value state interface exists and
round-trips correctly.  The cursor therefore does not survive restarts. -/
theorem cursor_in_memory_only :
    (∀ (saveOk : SMSMessage → Bool) (db : SMSDB) (c : Option String)
        (batch : List SMSMessage),
      ((checkForNewMessages saveOk db c batch).ops.all isSaveOp) = true) ∧
    (∀ (st : BotState) (key value : String),
      getStateSync (setStateSync st key value) key = some value) := by
  constructor
  · intro saveOk db c batch
    rw [checkForNewMessages_ops_eq]
    simp [List.all_eq_true, isSaveOp]
  · intro st key value
    simp [getStateSync, setStateSync]

/-- C8: scraper robustness.  (i) an absent listing container yields the empty
sequence rather than an error; (ii) a row whose extraction fails is skipped
without aborting the rest of the batch; (iii) a row lacking a body is
excluded; (iv) every included message has its sender and body trimmed of
surrounding whitespace (they are fixed points of the strip). -/
theorem scraper_robustness :
    (∀ (h : String → Int) (now : String),
      scrapeMessages h now PageView.absent = []) ∧
    (∀ (h : String → Int) (now : String) (rest : List ScrapedRow),
      scrapeMessages h now (PageView.listing (ScrapedRow.failed :: rest)) =
        scrapeMessages h now (PageView.listing rest)) ∧
    (∀ (h : String → Int) (now : String) (s t : Option String)
        (rest : List ScrapedRow),
      scrapeMessages h now (PageView.listing (ScrapedRow.fields s none t :: rest)) =
        scrapeMessages h now (PageView.listing rest)) ∧
    (∀ (h : String → Int) (now : String) (page : PageView),
      ((scrapeMessages h now page).all fun m =>
          pyStrip m.sender == m.sender && pyStrip m.message == m.message) = true) := by
  refine ⟨fun _ _ => rfl, fun _ _ _ => rfl, ?_, ?_⟩
  · intro h now s t rest
    show scrapeRows h now (ScrapedRow.fields s none t :: rest) = scrapeRows h now rest
    simp [scrapeRows, scrapeRow]
  · intro h now page
    cases page with
    | absent => rfl
    | listing rows =>
      show (scrapeRows h now rows).all _ = true
      induction rows with
      | nil => rfl
      | cons r rest ih =>
        cases r with
        | failed => simpa [scrapeRows, scrapeRow] using ih
        | fields s b t =>
          by_cases hb : (b.getD "") = ""
          · simpa [scrapeRows, scrapeRow, hb] using ih
          · simp [scrapeRows, scrapeRow, hb, List.all_cons, pyStrip_idem, ih]

/-- The string of `n` copies of `'a'`: an injection from the naturals into
message bodies, witnessing that there are more possible bodies than 64-bit
hash values. -/
def strRep (n : Nat) : String := ⟨List.replicate n 'a'⟩

theorem strRep_inj {n m : Nat} (h : strRep n = strRep m) : n = m := by
  have := congrArg (fun s : String => s.data.length) h
  simpa [strRep] using this

/-- C9 (counterexample): message identifiers are not stable across process
restarts and not collision-free.  Two admissible runtime hash functions
(both valued in the 64-bit range) assign different identifiers to one and
the same scrape, and under a single hash function two distinct bodies with
equal sender and timestamp receive equal identifiers. -/
theorem message_id_stability_cex :
    messageId (fun _ => 0) "s" "t" "m" ≠ messageId (fun _ => 1) "s" "t" "m" ∧
    (messageId (fun _ => 0) "s" "t" "body one" =
      messageId (fun _ => 0) "s" "t" "body two") ∧
    ("body one" : String) ≠ "body two" := by
  decide

/-- C9 (amended): identifier computation is deterministic within one process
(equal inputs always yield equal identifiers), but (i) for EVERY hash
function valued in the 64-bit CPython range there exist two distinct bodies
that collide — identical sender and timestamp, unequal bodies, equal
identifiers — and (ii) two processes whose hashes differ can assign
different identifiers to the same underlying message, so stability across
restarts fails. -/
theorem message_id_hash_properties :
    (∀ (h : String → Int) (s t m s' t' m' : String),
      s = s' → t = t' → m = m' → messageId h s t m = messageId h s' t' m') ∧
    (∀ h : String → Int, (∀ b, -(2 : Int)^63 ≤ h b ∧ h b < 2^63) →
      ∀ s t : String, ∃ m1 m2 : String,
        m1 ≠ m2 ∧ messageId h s t m1 = messageId h s t m2) ∧
    (∃ h1 h2 : String → Int,
      (∀ b, -(2 : Int)^63 ≤ h1 b ∧ h1 b < 2^63) ∧
      (∀ b, -(2 : Int)^63 ≤ h2 b ∧ h2 b < 2^63) ∧
      ∃ s t m : String, messageId h1 s t m ≠ messageId h2 s t m) := by
  refine ⟨?_, ?_, ?_⟩
  · intro h s t m s' t' m' hs ht hm
    rw [hs, ht, hm]
  · intro h hb s t
    have hmaps : ∀ i ∈ (Finset.univ : Finset (Fin (2^64 + 1))),
        h (strRep i.val) ∈ Finset.Icc (-(2 : Int)^63) ((2 : Int)^63 - 1) := by
      intro i _
      rw [Finset.mem_Icc]
      refine ⟨(hb _).1, ?_⟩
      linarith [(hb (strRep i.val)).2]
    have hcard1 : (Finset.Icc (-(2 : Int)^63) ((2 : Int)^63 - 1)).card = 2^64 := by
      rw [Int.card_Icc]
      norm_num
      rfl
    have hcard : (Finset.Icc (-(2 : Int)^63) ((2 : Int)^63 - 1)).card <
        (Finset.univ : Finset (Fin (2^64 + 1))).card := by
      rw [hcard1, Finset.card_univ, Fintype.card_fin]
      exact Nat.lt_succ_self _
    obtain ⟨i, _, j, _, hij, hfe⟩ :=
      Finset.exists_ne_map_eq_of_card_lt_of_maps_to hcard hmaps
    refine ⟨strRep i.val, strRep j.val, ?_, ?_⟩
    · intro he
      exact hij (Fin.ext (strRep_inj he))
    · unfold messageId
      rw [hfe]
  · refine ⟨fun _ => 0, fun _ => 1, fun b => by norm_num, fun b => by norm_num,
      "s", "t", "m", ?_⟩
    decide

theorem message_id_hash_properties_witness :
    messageId (fun _ => (0 : Int)) "s" "t" "m" =
      messageId (fun _ => (0 : Int)) "s" "t" "m" ∧
    ∃ m1 m2 : String, m1 ≠ m2 ∧
      messageId (fun _ => (0 : Int)) "s" "t" m1 =
        messageId (fun _ => (0 : Int)) "s" "t" m2 :=
  ⟨message_id_hash_properties.1 (fun _ => 0) "s" "t" "m" "s" "t" "m" rfl rfl rfl,
   message_id_hash_properties.2.1 (fun _ => 0) (fun b => by norm_num) "s" "t"⟩

/-- C10 (counterexample): two scrapes of the same underlying message that
differ only in whitespace surrounding the BODY need not get different
identifiers: when the process hash collides on the two raw bodies (here a
constant admissible hash), the stored fields agree, the raw inputs differ,
and the identifiers are EQUAL — so the claimed "the identifiers differ" is
false for this pair. -/
theorem message_id_whitespace_cex :
    pyStrip " body" = pyStrip "body" ∧
    (" body" : String) ≠ "body" ∧
    messageId (fun _ => 0) "S" "01:00" " body" =
      messageId (fun _ => 0) "S" "01:00" "body" := by
  decide

/-- C10 (amended): identifiers are built from the raw (untrimmed) fields
while stored fields are stripped.  For two scrapes whose fields agree after
stripping (same underlying message, nonempty bodies): (i) the stored
sender/body/timestamp triples coincide; (ii) if the raw sender or raw
timestamp differ — e.g. only in surrounding whitespace — the identifiers
differ, defeating deduplication for that pair; (iii) a difference confined
to the body changes the identifier only when it changes the body hash. -/
theorem message_id_untrimmed_inputs (h : String → Int)
    (s1 t1 b1 s2 t2 b2 now : String)
    (hs : pyStrip s1 = pyStrip s2) (ht : pyStrip t1 = pyStrip t2)
    (hb : pyStrip b1 = pyStrip b2) (hb1 : b1 ≠ "") (hb2 : b2 ≠ "") :
    (Option.map (fun msg => (msg.sender, msg.message, msg.timestamp))
        (scrapeRow h now (ScrapedRow.fields (some s1) (some b1) (some t1))) =
      Option.map (fun msg => (msg.sender, msg.message, msg.timestamp))
        (scrapeRow h now (ScrapedRow.fields (some s2) (some b2) (some t2)))) ∧
    (s1 ≠ s2 ∨ t1 ≠ t2 → messageId h s1 t1 b1 ≠ messageId h s2 t2 b2) ∧
    (messageId h s1 t1 b1 ≠ messageId h s2 t2 b2 →
      s1 ≠ s2 ∨ t1 ≠ t2 ∨ h b1 ≠ h b2) := by
  refine ⟨?_, ?_, ?_⟩
  · simp [scrapeRow, hb1, hb2, hs, ht, hb]
  · intro hne heq
    obtain ⟨e1, e2, _⟩ := messageId_inj_core h s1 t1 b1 s2 t2 b2
      (nonWsLen_of_strip_eq hs) (nonWsLen_of_strip_eq ht) heq
    rcases hne with hne | hne
    · exact hne e1
    · exact hne e2
  · intro hne
    by_contra hcon
    push_neg at hcon
    obtain ⟨es, et, eh⟩ := hcon
    apply hne
    rw [es, et]
    unfold messageId
    rw [eh]

theorem message_id_untrimmed_inputs_witness :
    messageId (fun _ => (0 : Int)) "S " "01:00" "body" ≠
      messageId (fun _ => (0 : Int)) "S" "01:00" "body" :=
  (message_id_untrimmed_inputs (fun _ => 0) "S " "01:00" "body" "S" "01:00"
    "body" "2024-01-01T00:00:00" (by decide) rfl rfl (by decide) (by decide)).2.1
    (Or.inl (by decide))
